import Mathlib

/-!
Shallow embedding of the Seoul-metro dashboard data pipeline
(`main.py` and `pages/01…06`), together with theorems settling the
frozen claims about it.  Each definition's doc comment names the
source location it embeds.
-/

namespace Metro

/-- Embeds `s.str.replace(',', '')` from the numeric-coercion step
(`main.py` line 50, `pages/06` line 137): every comma is removed. -/
def removeCommas (s : String) : String :=
  ⟨s.data.filter (fun c => c ≠ ',')⟩

/-- Value of a non-empty all-digit character run, `none` otherwise.
Helper for the model of `pd.to_numeric` on integer-literal cells. -/
def digitsVal? (l : List Char) : Option Nat :=
  if l = [] then none
  else if l.all Char.isDigit then
    some (l.foldl (fun a c => a * 10 + (c.toNat - 48)) 0)
  else none

/-- Models `pd.to_numeric(_, errors='coerce')` on an integer-literal cell
(the domain of the ridership counts): an optional sign followed by digits
parses to that integer, anything else coerces to `none` (pandas `NaN`). -/
def parseNumeric (s : String) : Option Int :=
  match s.data with
  | '-' :: rest => (digitsVal? rest).map (fun n => -(n : Int))
  | '+' :: rest => (digitsVal? rest).map (fun n => (n : Int))
  | l => (digitsVal? l).map (fun n => (n : Int))

/-- Embeds the whole cell-coercion chain
`pd.to_numeric(cell.replace(',', ''), errors='coerce').fillna(0).astype(int)`
(`main.py` lines 46-52, `pages/06` lines 134-140).  A missing cell (`none`,
pandas `NaN`) and a parse failure both coerce to `0`. -/
def coerceCell : Option String → Int
  | none => 0
  | some s => (parseNumeric (removeCommas s)).getD 0

/-- One record of the raw CSV after reading: identity fields
(`사용월`, `호선명`, `역ID`, `지하철역`) and the hourly value cells.
`line`/`station` are `Option` because the CSV may leave them missing
(pandas `NaN`), which `dropna` later removes. -/
structure RawRow where
  month : String
  line : Option String
  stationId : String
  station : Option String
  cells : List (Option String)

/-- Embeds `df.dropna(subset=['호선명', '지하철역'])`
(`main.py` line 33, `pages/06` lines 121-123): keep exactly the rows whose
line-name and station-name are both present. -/
def dropnaRows (rows : List RawRow) : List RawRow :=
  rows.filter (fun r => r.line.isSome && r.station.isSome)

/-- One row of the long-format fact table produced by `melt`. -/
structure LongFact where
  month : String
  line : Option String
  stationId : String
  station : Option String
  timeCat : String
  value : Int

/-- Embeds `df.melt(id_vars=…, var_name='시간구분', value_name='인원수')`
(`main.py` line 56, `pages/06` line 146): for each value column (outer) and
each row (inner) one long record is emitted, carrying the row's identity
fields, the column name, and the coerced cell value. -/
def meltTable (valueCols : List String) (rows : List RawRow) : List LongFact :=
  valueCols.enum.flatMap (fun jc =>
    rows.map (fun r =>
      { month := r.month, line := r.line, stationId := r.stationId,
        station := r.station, timeCat := jc.2,
        value := coerceCell (r.cells.get? jc.1).join }))

/-- A raw wide table: header row plus data rows, both positional. -/
structure RawTable where
  header : List String
  rows : List (List String)

/-- Embeds `df = df.iloc[:, :-1]` (`main.py` line 36, `pages/05` line 22):
the final column is removed positionally, header text and cell values alike,
without looking at the header. -/
def ilocDropLastColumn (t : RawTable) : RawTable :=
  { header := t.header.dropLast, rows := t.rows.map List.dropLast }

/-- Lexicographic comparison of character lists by code point, the
comparison Python (and hence pandas) applies to the hour-label strings in
`df_long['시간대'] >= start_time` etc. -/
def charListLe : List Char → List Char → Bool
  | [], _ => true
  | _ :: _, [] => false
  | a :: as, b :: bs => if a = b then charListLe as bs else decide (a < b)

/-- String comparison as Python performs it: lexicographic by code point. -/
def strLe (a b : String) : Bool := charListLe a.data b.data

/-- One record of the long fact table `df_long`
(columns `호선명`, `지하철역`, `시간대`, `구분`, `인원수`); the count carries the
Fact invariant (non-negative integer). -/
structure Fact where
  line : String
  station : String
  hour : String
  dir : String
  count : Nat
deriving DecidableEq

/-- Embeds the row filter of `pages/01` lines 66-76:
`(df_long['구분'] == d) & (df_long['시간대'] >= start) & (df_long['시간대'] <= end)`,
where the hour comparison is plain string comparison. -/
def filterFacts (facts : List Fact) (d startH endH : String) : List Fact :=
  facts.filter (fun f => decide (f.dir = d) && strLe startH f.hour && strLe f.hour endH)

/-- Embeds `filtered.groupby('지하철역')['인원수'].sum()` for a single station
key (`pages/01` lines 80-83, `pages/02` line 53): the `combine=true`
aggregate of a station over the filtered facts. -/
def aggCombined (facts : List Fact) (d startH endH station : String) : Nat :=
  (((filterFacts facts d startH endH).filter
      (fun f => decide (f.station = station))).map Fact.count).sum

/-- Embeds `filtered.groupby(['호선명', '지하철역'])['인원수'].sum()` for a single
(line, station) key (`pages/01` lines 87-90, `pages/02` line 64): the
`combine=false` aggregate. -/
def aggIndividual (facts : List Fact) (d startH endH line station : String) : Nat :=
  (((filterFacts facts d startH endH).filter
      (fun f => decide (f.station = station) && decide (f.line = line))).map Fact.count).sum

/-- The concrete two-line 강남 table of the C4 scenario, in long format:
each line contributes `04_승차 = 100` and `04_하차 = 50`. -/
def factsGangnam : List Fact :=
  [⟨"2호선", "강남", "04", "승차", 100⟩, ⟨"2호선", "강남", "04", "하차", 50⟩,
   ⟨"신분당선", "강남", "04", "승차", 100⟩, ⟨"신분당선", "강남", "04", "하차", 50⟩]

/-- Concrete late-night boarding facts at hours 23, 00 and 01, for the
hour-window scenario of C2. -/
def factsLateNight : List Fact :=
  [⟨"2호선", "강남", "23", "승차", 5⟩, ⟨"2호선", "강남", "00", "승차", 7⟩,
   ⟨"2호선", "강남", "01", "승차", 9⟩]

/-- Two-digit hour label, models Python's `f"{h:02d}"`. -/
def hh2 (n : Nat) : String :=
  if n < 10 then "0" ++ toString n else toString n

/-- The desired hour ordering of `pages/06` line 186:
`[f"{h:02d}" for h in range(4, 24)] + [f"{h:02d}" for h in range(0, 4)]`. -/
def desiredHourOrder : List String :=
  ((List.range 20).map (fun i => hh2 (i + 4))) ++ ((List.range 4).map hh2)

/-- Embeds the analysis-type filter of `get_cumulative_data`
(`pages/06` lines 169-172): `종합` keeps everything, otherwise only the
rows of the chosen direction. -/
def typeFilter (t : String) (facts : List Fact) : List Fact :=
  if t = "종합" then facts else facts.filter (fun f => decide (f.dir = t))

/-- Embeds the `역명(호선)` label of `get_cumulative_data`
(`pages/06` lines 177-182): the station name alone in combined mode,
`station(line)` otherwise. -/
def labelOf (combine : Bool) (f : Fact) : String :=
  if combine then f.station else f.station ++ "(" ++ f.line ++ ")"

/-- Distinct values in first-occurrence order, models `pd.unique` and the
distinct-key extraction of `groupby`. -/
def uniqueFirst (l : List String) : List String :=
  l.foldl (fun acc x => if x ∈ acc then acc else acc ++ [x]) []

/-- Embeds `pd.unique(grouped['시간대'])` (`pages/06` line 185): the distinct
hour labels of the data in first-occurrence order. -/
def seenHours (facts : List Fact) : List String :=
  uniqueFirst (facts.map Fact.hour)

/-- Embeds the hour-order computation of `pages/06` lines 186-189: the
desired order restricted to the hours present, falling back to the seen
order when nothing matches. -/
def cumHourOrder (facts : List Fact) : List String :=
  let order := desiredHourOrder.filter (fun t => decide (t ∈ seenHours facts))
  if order = [] then seenHours facts else order

/-- Embeds the groupby-sum of `get_cumulative_data` (`pages/06` lines
178/181) for one (label, hour) group. -/
def groupSum (facts : List Fact) (combine : Bool) (key h : String) : Nat :=
  ((facts.filter (fun f => decide (labelOf combine f = key) && decide (f.hour = h))).map
      Fact.count).sum

/-- Embeds the per-label `cumsum` along the sorted hour order
(`pages/06` lines 191-194): the cumulative count of a label after the hour
at index `i` of the order. -/
def cumulativeAt (facts : List Fact) (combine : Bool) (t key : String) (i : Nat) : Nat :=
  (((cumHourOrder (typeFilter t facts)).take (i + 1)).map
      (groupSum (typeFilter t facts) combine key)).sum

/-- Order-preserving insertion into an ascending list of station keys. -/
def insertSorted (x : String) : List String → List String
  | [] => [x]
  | y :: ys => if strLe x y then x :: y :: ys else y :: insertSorted x ys

/-- Ascending string sort; models the ascending key sort that pandas
`groupby` applies to its group keys before `reset_index`. -/
def sortStrings : List String → List String
  | [] => []
  | x :: xs => insertSorted x (sortStrings xs)

/-- First-occurrence maximum of (key, count) rows: models `Series.idxmax`,
which returns the first index attaining the maximum. -/
def firstMax : List (String × Nat) → Option (String × Nat)
  | [] => none
  | p :: ps =>
    match firstMax ps with
    | none => some p
    | some q => if q.2 > p.2 then some q else some p

/-- First-occurrence maximum over whole fact rows, the `idxmax` of
`pages/04` line 93 applied to `df_long` in input row order. -/
def firstMaxFact : List Fact → Option Fact
  | [] => none
  | f :: fs =>
    match firstMaxFact fs with
    | none => some f
    | some g => if g.count > f.count then some g else some f

/-- The (hour, direction) group over which the champion `idxmax` runs
(`pages/04` lines 78-79 and 93). -/
def sliceFacts (facts : List Fact) (h d : String) : List Fact :=
  facts.filter (fun f => decide (f.hour = h) && decide (f.dir = d))

/-- Individual-mode champion:
`df_long.loc[df_long.groupby(['시간대','구분'])['인원수'].idxmax()]`
(`pages/04` line 93) for one group — the first row of the group, in input
row order, attaining the maximal count. -/
def champIndividual (facts : List Fact) (h d : String) : Option Fact :=
  firstMaxFact (sliceFacts facts h d)

/-- The distinct stations of one (hour, direction) group in ascending
order, as `groupby(['시간대','구분','지하철역']).sum().reset_index()`
(`pages/04` line 78) lays them out: pandas sorts the group keys. -/
def sortedStations (facts : List Fact) (h d : String) : List String :=
  sortStrings (uniqueFirst ((sliceFacts facts h d).map Fact.station))

/-- The groupby sum of one station inside one (hour, direction) group
(`pages/04` line 78). -/
def stationSliceSum (facts : List Fact) (h d s : String) : Nat :=
  (((sliceFacts facts h d).filter (fun f => decide (f.station = s))).map Fact.count).sum

/-- The grouped (station, count) rows of `grouped_by_name` restricted to
one (hour, direction) group, in the sorted key order pandas produces. -/
def stationSums (facts : List Fact) (h d : String) : List (String × Nat) :=
  (sortedStations facts h d).map (fun s => (s, stationSliceSum facts h d s))

/-- Combined-mode champion: `idxmax` over the grouped rows
(`pages/04` line 79). -/
def champCombined (facts : List Fact) (h d : String) : Option (String × Nat) :=
  firstMax (stationSums facts h d)

/-- Tie table for C6: the B-station row precedes an equally-counted
A-station row whose key is strictly smaller in string order. -/
def factsTie : List Fact :=
  [⟨"2호선", "B역", "04", "승차", 10⟩, ⟨"1호선", "A역", "04", "승차", 10⟩]

/-- Embeds the share-of-total normalization of `main.py` lines 66-67:
`df_pattern.div(df_pattern.sum(axis=1), axis=0).fillna(0)` — each count of a
station row is divided by the row's total.  The only NaN cells pandas
produces here are `0/0` on an all-zero row, filled with 0 by `fillna(0)`,
which coincides with ℚ's zero-division convention used below. -/
def normalizeRow (v : List Nat) : List ℚ :=
  v.map (fun (c : Nat) => (c : ℚ) / (v.sum : ℚ))

/-- The station-keyed profile table of `main.py` line 67: the share-of-total
normalization applied to every station row of `df_pattern`. -/
def patternProfiles (tbl : List ((String × String) × List Nat)) :
    List ((String × String) × List ℚ) :=
  tbl.map (fun kr => (kr.1, normalizeRow kr.2))

/-- The `j`-th column of a pattern table, as `MinMaxScaler` sees it. -/
def colVals (rows : List (List ℚ)) (j : Nat) : List ℚ :=
  rows.map (fun r => r.getD j 0)

/-- Minimum of a column (sklearn `data_min_`). -/
def listMin : List ℚ → ℚ
  | [] => 0
  | x :: xs => xs.foldl min x

/-- Maximum of a column (sklearn `data_max_`). -/
def listMax : List ℚ → ℚ
  | [] => 0
  | x :: xs => xs.foldl max x

/-- One entry of sklearn's `MinMaxScaler.fit_transform`
(`pages/03` lines 63-64): `(x - col_min) / (col_max - col_min)`, a zero
range being replaced by 1 (sklearn's `_handle_zeros_in_scale`). -/
def minMaxEntry (rows : List (List ℚ)) (j : Nat) (x : ℚ) : ℚ :=
  let lo := listMin (colVals rows j)
  let hi := listMax (colVals rows j)
  (x - lo) / (if hi - lo = 0 then 1 else hi - lo)

/-- Embeds `scaler.fit_transform(df_wide[numeric_cols])` of
`get_pattern_data` (`pages/03` lines 61-66): every entry is MinMax-scaled
within its own column. -/
def minMaxTable (rows : List (List ℚ)) : List (List ℚ) :=
  rows.map (fun r => r.enum.map (fun jx => minMaxEntry rows jx.1 jx.2))

/-- Numeric value of a digit character. -/
def digitVal (c : Char) : Nat := c.toNat - 48

/-- One attempt of the primary hour regex `(\d{1,2})(?=[:시])` of
`_parse_hour` (`pages/06` line 40) at a fixed position: greedily two digits,
backtracking to one, each followed by `:` or `시`. -/
def hourSepAt : List Char → Option Nat
  | c1 :: c2 :: c3 :: _ =>
    if c1.isDigit && c2.isDigit && (c3 = ':' || c3 = '시') then
      some (digitVal c1 * 10 + digitVal c2)
    else if c1.isDigit && (c2 = ':' || c2 = '시') then some (digitVal c1)
    else none
  | [c1, c2] =>
    if c1.isDigit && (c2 = ':' || c2 = '시') then some (digitVal c1) else none
  | _ => none

/-- `re.search` of the primary hour regex: leftmost position wins. -/
def searchHourSep : List Char → Option Nat
  | [] => none
  | l@(_ :: rest) =>
    match hourSepAt l with
    | some n => some n
    | none => searchHourSep rest

/-- One attempt of the backup hour regex `(^|\s)(\d{1,2})(?=\D)`
(`pages/06` line 43) at a digit position: greedily two digits, backtracking
to one, each followed by some non-digit character. -/
def backupAt : List Char → Option Nat
  | c1 :: c2 :: c3 :: _ =>
    if c1.isDigit && c2.isDigit && !c3.isDigit then
      some (digitVal c1 * 10 + digitVal c2)
    else if c1.isDigit && !c2.isDigit then some (digitVal c1)
    else none
  | [c1, c2] =>
    if c1.isDigit && c2.isDigit then none
    else if c1.isDigit && !c2.isDigit then some (digitVal c1)
    else none
  | _ => none

/-- `re.search` of the backup regex: tried at the string start and after
each whitespace character, leftmost match first. -/
def searchBackup : Bool → List Char → Option Nat
  | _, [] => none
  | prevWs, l@(c :: rest) =>
    match prevWs, backupAt l with
    | true, some n => some n
    | _, _ => searchBackup c.isWhitespace rest

/-- Embeds `_parse_hour` (`pages/06` lines 33-52): primary regex first, the
backup only when the primary finds nothing at all; the extracted number is
kept only when ≤ 23 and is formatted as a two-digit label. -/
def parse_hour (s : String) : Option String :=
  match searchHourSep s.data with
  | some hh => if hh ≤ 23 then some (hh2 hh) else none
  | none =>
    match searchBackup true s.data with
    | some hh => if hh ≤ 23 then some (hh2 hh) else none
    | none => none

/-- Substring test on character lists, models Python's `in` on strings. -/
def listContainsSub (pat : List Char) : List Char → Bool
  | [] => pat.isPrefixOf []
  | l@(_ :: rest) => pat.isPrefixOf l || listContainsSub pat rest

/-- `pat in s` of Python. -/
def containsSub (s pat : String) : Bool := listContainsSub pat.data s.data

/-- Models Python's `str.strip()`: leading and trailing whitespace removed. -/
def stripStr (s : String) : String :=
  ⟨((s.data.dropWhile Char.isWhitespace).reverse.dropWhile Char.isWhitespace).reverse⟩

/-- The identity columns kept verbatim by `_rename_columns_safely`
(`pages/06` line 55). -/
def baseCols : List String := ["사용월", "호선명", "역ID", "지하철역"]

/-- Embeds the per-header decision of `_rename_columns_safely`
(`pages/06` lines 59-77): identity headers are kept as-is; a header bearing
a boarding/alighting marker whose hour parses is renamed to `HH_구분`; every
other header is dropped (`none`). -/
def normalizeHeader (c : String) : Option String :=
  let cs := stripStr c
  if cs ∈ baseCols then some cs
  else if containsSub cs "승차" || containsSub cs "하차" then
    match parse_hour cs with
    | some hh => some (hh ++ "_" ++ (if containsSub cs "승차" then "승차" else "하차"))
    | none => none
  else none

/-- Embeds `_rename_columns_safely`'s keep-mask plus rename over a whole
header list (`pages/06` lines 79-81): the canonical names of the kept
columns, in order. -/
def renameColumnsSafely (cols : List String) : List String :=
  cols.filterMap normalizeHeader

/-- One byte-source read attempt outcome, as seen by `pd.read_csv`:
success, a `UnicodeDecodeError`, or a `FileNotFoundError`. -/
inductive ReadOutcome (α : Type) where
  | ok (t : α)
  | decodeErr
  | notFound
deriving DecidableEq

/-- The two encodings the loaders ever pass to `pd.read_csv`. -/
inductive Enc where
  | cp949
  | utf8sig
deriving DecidableEq

/-- How a call of `load_data` ends: a loaded table, the handled
file-not-found branch (`st.error` + `return None`), or an exception
propagating out of the second read attempt. -/
inductive LoadResult (α : Type) where
  | loaded (t : α)
  | sourceMissing
  | uncaughtDecodeErr
  | uncaughtNotFound
deriving DecidableEq

/-- Embeds the encoding control flow of `load_data` (`main.py` lines 22-30,
likewise `_read_csv_any_encoding` of `pages/06` lines 12-20): read with
cp949; a `UnicodeDecodeError` triggers exactly one retry with utf-8-sig,
whose own failures propagate; a `FileNotFoundError` on the first read is
handled with no retry.  The second component records the encodings
attempted, in order. -/
def loadDataEnc {α : Type} (read : Enc → ReadOutcome α) : LoadResult α × List Enc :=
  match read Enc.cp949 with
  | ReadOutcome.ok t => (LoadResult.loaded t, [Enc.cp949])
  | ReadOutcome.notFound => (LoadResult.sourceMissing, [Enc.cp949])
  | ReadOutcome.decodeErr =>
    match read Enc.utf8sig with
    | ReadOutcome.ok t => (LoadResult.loaded t, [Enc.cp949, Enc.utf8sig])
    | ReadOutcome.decodeErr => (LoadResult.uncaughtDecodeErr, [Enc.cp949, Enc.utf8sig])
    | ReadOutcome.notFound => (LoadResult.uncaughtNotFound, [Enc.cp949, Enc.utf8sig])

/-- C5 counterexample: the coercion of the raw cell text `"-5"` is the
negative integer `-5`, so the coerced count is not always non-negative. -/
theorem coerceCell_neg_cell : coerceCell (some "-5") = -5 ∧ coerceCell (some "-5") < 0 := by
  constructor <;> decide

/-- C5 (amended): cell coercion strips thousands-separator commas and parses
the remainder as an integer; a parse failure or a missing value coerces to
`0`; the result is a well-defined integer — never a null — and it is
non-negative whenever the cell text carries no minus sign (`"1,234" ↦ 1234`,
`"" ↦ 0`, `"N/A" ↦ 0`, missing `↦ 0`), though a negative cell text parses to
a negative integer. -/
theorem coerceCell_spec :
    coerceCell (some "1,234") = 1234 ∧
    coerceCell (some "") = 0 ∧
    coerceCell (some "N/A") = 0 ∧
    coerceCell none = 0 ∧
    ∀ s : String, '-' ∉ s.data → 0 ≤ coerceCell (some s) := by
  refine ⟨by decide, by decide, by decide, rfl, ?_⟩
  intro s hs
  have hsub : '-' ∉ (removeCommas s).data := fun hmem =>
    hs (List.mem_of_mem_filter hmem)
  show 0 ≤ (parseNumeric (removeCommas s)).getD 0
  unfold parseNumeric
  split
  · rename_i rest heq
    exact absurd (heq ▸ List.mem_cons_self _ _) hsub
  · rename_i rest heq
    cases digitsVal? rest <;> simp
  · cases digitsVal? (removeCommas s).data <;> simp

/-- C5 witness: the non-negativity clause of `coerceCell_spec` applied at
the concrete comma-separated cell `"1,234"`. -/
theorem coerceCell_spec_witness : 0 ≤ coerceCell (some "1,234") :=
  coerceCell_spec.2.2.2.2 "1,234" (by decide)

/-- C3: the long-format output of the fact builder has exactly
(valid row count) × (value column count) rows, for every raw table and
every list of value columns retained by the normalizer. -/
theorem meltTable_length (valueCols : List String) (rows : List RawRow) :
    (meltTable valueCols (dropnaRows rows)).length
      = (dropnaRows rows).length * valueCols.length := by
  rw [meltTable, List.length_flatMap,
    List.map_congr_left (g := fun _ => (dropnaRows rows).length)
      (fun jc _ => by simp [Function.comp]),
    List.map_const', List.sum_replicate, smul_eq_mul, List.enum_length, mul_comm]

/-- C10: the loader removes the final column positionally — for every header
text `c` the result keeps exactly the preceding columns, with no inspection
of `c` — so a table lacking the trailing registration-date column loses its
last data column (here the `04:00~05:00 하차` data column). -/
theorem ilocDropLastColumn_positional :
    (∀ (pre : List String) (c : String) (rows : List (List String)),
        (ilocDropLastColumn ⟨pre ++ [c], rows⟩).header = pre) ∧
    ilocDropLastColumn
        ⟨["사용월", "호선명", "역ID", "지하철역", "04:00~05:00 승차", "04:00~05:00 하차"],
         [["202406", "2호선", "0222", "강남", "100", "50"]]⟩
      = ⟨["사용월", "호선명", "역ID", "지하철역", "04:00~05:00 승차"],
         [["202406", "2호선", "0222", "강남", "100"]]⟩ := by
  constructor
  · intro pre c rows
    simp [ilocDropLastColumn]
  · rfl

/-- Transitivity of the embedded lexicographic string comparison. -/
theorem charListLe_trans {a b c : List Char} (h1 : charListLe a b = true)
    (h2 : charListLe b c = true) : charListLe a c = true := by
  induction a generalizing b c with
  | nil => rfl
  | cons x as ih =>
    cases b with
    | nil => simp [charListLe] at h1
    | cons y bs =>
      cases c with
      | nil => simp [charListLe] at h2
      | cons z cs =>
        simp only [charListLe] at h1 h2 ⊢
        by_cases hxy : x = y
        · subst hxy
          rw [if_pos rfl] at h1
          by_cases hxz : x = z
          · subst hxz
            rw [if_pos rfl] at h2 ⊢
            exact ih h1 h2
          · rw [if_neg hxz] at h2 ⊢
            exact h2
        · rw [if_neg hxy] at h1
          have hxy' : x < y := of_decide_eq_true h1
          by_cases hyz : y = z
          · subst hyz
            rw [if_neg hxy]
            exact h1
          · rw [if_neg hyz] at h2
            have hyz' : y < z := of_decide_eq_true h2
            have hxz' : x < z := lt_trans hxy' hyz'
            rw [if_neg (ne_of_lt hxz')]
            exact decide_eq_true hxz'

/-- C2 counterexample: on a concrete fact table holding boarding rows at
hours 23, 00 and 01, the hour-window selection from "23" to "01" is empty —
not the hours 23, 00, 01 the claim requires. -/
theorem hourWindow_23_01_empty_concrete :
    filterFacts factsLateNight "승차" "23" "01" = [] ∧ factsLateNight ≠ [] := by
  constructor
  · rfl
  · decide

/-- C2 (amended): hour-window selection compares the hour labels as plain
strings (`start ≤ h ≤ end` lexicographically), with no circular walk of the
canonical hour order; consequently, for every fact table and direction, the
window from "23" to "01" selects nothing at all. -/
theorem hourWindow_no_wraparound (facts : List Fact) (d : String) :
    filterFacts facts d "23" "01" = [] := by
  rw [filterFacts, List.filter_eq_nil_iff]
  intro f hf hpred
  have h23 : strLe "23" f.hour = true := by
    have := (Bool.and_eq_true _ _).mp hpred
    exact ((Bool.and_eq_true _ _).mp this.1).2
  have h01 : strLe f.hour "01" = true := by
    exact ((Bool.and_eq_true _ _).mp hpred).2
  have : strLe "23" "01" = true := charListLe_trans h23 h01
  exact absurd this (by decide)

/-- C2 witness: `hourWindow_no_wraparound` applied to the concrete
late-night table. -/
theorem hourWindow_no_wraparound_witness :
    filterFacts factsLateNight "승차" "23" "01" = [] :=
  hourWindow_no_wraparound factsLateNight "승차"

/-- Splitting a filtered count sum by line: summing the counts of the facts
satisfying `p` equals summing, over any line set `S` covering the lines of
the `p`-facts, the counts of the facts satisfying `p` on that line. -/
theorem sum_counts_by_line (facts : List Fact) (p : Fact → Bool) (S : Finset String)
    (hS : ∀ f ∈ facts, p f = true → f.line ∈ S) :
    ((facts.filter p).map Fact.count).sum
      = ∑ l ∈ S, ((facts.filter (fun f => p f && decide (f.line = l))).map Fact.count).sum := by
  induction facts with
  | nil => simp
  | cons f fs ih =>
    have hexp : ∀ l : String,
        (((f :: fs).filter (fun x => p x && decide (x.line = l))).map Fact.count).sum
          = (if f.line = l then (if p f = true then f.count else 0) else 0)
            + ((fs.filter (fun x => p x && decide (x.line = l))).map Fact.count).sum := by
      intro l
      by_cases hl : f.line = l <;> by_cases hp : p f = true <;>
        simp [List.filter_cons, hl, hp]
    rw [Finset.sum_congr rfl (fun l _ => hexp l), Finset.sum_add_distrib, Finset.sum_ite_eq]
    have ihs := ih (fun g hg hpg => hS g (List.mem_cons_of_mem f hg) hpg)
    by_cases hp : p f = true
    · rw [if_pos (hS f (List.mem_cons_self f fs) hp), if_pos hp]
      rw [List.filter_cons, if_pos hp]
      simp only [List.map_cons, List.sum_cons]
      rw [ihs]
    · rw [List.filter_cons, if_neg hp, ihs]
      rw [if_neg hp]
      simp

/-- C4: for every fact table, hour window and direction, the
`combine=true` count of a station equals the sum of its `combine=false`
counts over all lines occurring in the table; in particular the concrete
two-line 강남 table combined at window [04,04] yields boarding 200 and
alighting 100. -/
theorem aggCombined_eq_sum_aggIndividual :
    (∀ (facts : List Fact) (d s e st : String),
        aggCombined facts d s e st
          = ∑ l ∈ (facts.map Fact.line).toFinset, aggIndividual facts d s e l st) ∧
    aggCombined factsGangnam "승차" "04" "04" "강남" = 200 ∧
    aggCombined factsGangnam "하차" "04" "04" "강남" = 100 := by
  refine ⟨?_, rfl, rfl⟩
  intro facts d s e st
  exact sum_counts_by_line (filterFacts facts d s e) (fun f => decide (f.station = st))
    ((facts.map Fact.line).toFinset)
    (fun f hf _ => List.mem_toFinset.mpr (List.mem_map_of_mem Fact.line (List.mem_of_mem_filter hf)))

/-- C7: for every fact table (counts are non-negative by the Fact
invariant), every grouping mode, direction choice and station key, the
cumulative count is monotonically non-decreasing along the hour order
04,05,…,23,00,01 used by the cumulative engine. -/
theorem cumulativeAt_monotone (facts : List Fact) (combine : Bool) (t key : String)
    {i j : Nat} (h : i ≤ j) :
    cumulativeAt facts combine t key i ≤ cumulativeAt facts combine t key j := by
  unfold cumulativeAt
  have h1 : ((cumHourOrder (typeFilter t facts)).take (i + 1)).Sublist
      ((cumHourOrder (typeFilter t facts)).take (j + 1)) := by
    rw [← Nat.min_eq_left (Nat.add_le_add_right h 1), ← List.take_take]
    exact List.take_sublist _ _
  exact (h1.map (groupSum (typeFilter t facts) combine key)).sum_le_sum
    (fun a _ => Nat.zero_le a)

/-- C7 witness: the cumulative count of 강남 on the late-night table is
non-decreasing from the first to the third hour of the order. -/
theorem cumulativeAt_monotone_witness :
    cumulativeAt factsLateNight true "종합" "강남" 0
      ≤ cumulativeAt factsLateNight true "종합" "강남" 2 :=
  cumulativeAt_monotone factsLateNight true "종합" "강남" (by decide)

/-- Reflexivity of the embedded lexicographic comparison. -/
theorem charListLe_refl : ∀ l : List Char, charListLe l l = true
  | [] => rfl
  | c :: cs => by rw [charListLe, if_pos rfl]; exact charListLe_refl cs

/-- Totality of the embedded lexicographic comparison. -/
theorem charListLe_total {a b : List Char} (h : charListLe a b = false) :
    charListLe b a = true := by
  induction a generalizing b with
  | nil => cases h
  | cons x as ih =>
    cases b with
    | nil => rfl
    | cons y bs =>
      rw [charListLe] at h
      by_cases hxy : x = y
      · subst hxy
        rw [if_pos rfl] at h
        rw [charListLe, if_pos rfl]
        exact ih h
      · rw [if_neg hxy] at h
        have hnlt : ¬ x < y := of_decide_eq_false h
        have hyx : y < x := lt_of_le_of_ne (le_of_not_lt hnlt) (fun hh => hxy hh.symm)
        rw [charListLe, if_neg (fun hh => hxy hh.symm)]
        exact decide_eq_true hyx

/-- Membership in an insertion is membership in the parts. -/
theorem mem_insertSorted {x a : String} :
    ∀ {l : List String}, a ∈ insertSorted x l ↔ a = x ∨ a ∈ l := by
  intro l
  induction l with
  | nil => simp [insertSorted]
  | cons y ys ih =>
    rw [insertSorted]
    by_cases h : strLe x y = true
    · rw [if_pos h]
      simp [List.mem_cons]
    · rw [if_neg h]
      simp only [List.mem_cons, ih]
      tauto

/-- Inserting into an ascending list keeps it ascending. -/
theorem pairwise_insertSorted {x : String} {l : List String}
    (hl : l.Pairwise (fun a b => strLe a b = true)) :
    (insertSorted x l).Pairwise (fun a b => strLe a b = true) := by
  induction l with
  | nil => simp [insertSorted]
  | cons y ys ih =>
    rcases List.pairwise_cons.mp hl with ⟨hy, hys⟩
    rw [insertSorted]
    by_cases h : strLe x y = true
    · rw [if_pos h]
      refine List.pairwise_cons.mpr ⟨?_, hl⟩
      intro b hb
      rcases List.mem_cons.mp hb with rfl | hb'
      · exact h
      · exact charListLe_trans h (hy b hb')
    · rw [if_neg h]
      refine List.pairwise_cons.mpr ⟨?_, ih hys⟩
      intro b hb
      rcases mem_insertSorted.mp hb with hbx | hb'
      · rw [hbx]
        have hf : strLe x y = false := by
          revert h
          cases strLe x y <;> simp
        exact charListLe_total hf
      · exact hy b hb'

/-- The insertion sort produces an ascending list. -/
theorem sortStrings_pairwise :
    ∀ l : List String, (sortStrings l).Pairwise (fun a b => strLe a b = true)
  | [] => List.Pairwise.nil
  | _ :: xs => pairwise_insertSorted (sortStrings_pairwise xs)

/-- `firstMax` of a non-empty list is never `none`. -/
theorem firstMax_ne_none (p : String × Nat) (ps : List (String × Nat)) :
    firstMax (p :: ps) ≠ none := by
  rw [firstMax]
  cases firstMax ps with
  | none => simp
  | some q =>
    by_cases hq : q.2 > p.2 <;> simp [hq]

/-- `firstMax` returns a maximal count. -/
theorem firstMax_le {l : List (String × Nat)} {p : String × Nat}
    (hl : firstMax l = some p) : ∀ q ∈ l, q.2 ≤ p.2 := by
  induction l generalizing p with
  | nil => cases hl
  | cons a t ih =>
    intro q hq
    cases hft : firstMax t with
    | none =>
      simp only [firstMax, hft] at hl
      cases t with
      | nil =>
        obtain rfl : a = p := by injection hl
        obtain rfl : q = a := by
          rcases List.mem_cons.mp hq with rfl | hq'
          · rfl
          · cases hq'
        exact le_refl _
      | cons b u => exact absurd hft (firstMax_ne_none b u)
    | some g =>
      simp only [firstMax, hft] at hl
      by_cases hgt : g.2 > a.2
      · rw [if_pos hgt] at hl
        obtain rfl : g = p := by injection hl
        rcases List.mem_cons.mp hq with rfl | hq'
        · exact le_of_lt hgt
        · exact ih hft q hq'
      · rw [if_neg hgt] at hl
        obtain rfl : a = p := by injection hl
        rcases List.mem_cons.mp hq with rfl | hq'
        · exact le_refl _
        · exact le_trans (ih hft q hq') (le_of_not_lt hgt)

/-- On an ascending key list, the first-occurrence maximum carries the
least key among the rows tied for the maximum. -/
theorem firstMax_tie {l : List (String × Nat)} {p : String × Nat}
    (hpair : l.Pairwise (fun a b => strLe a.1 b.1 = true))
    (hl : firstMax l = some p) : ∀ q ∈ l, q.2 = p.2 → strLe p.1 q.1 = true := by
  induction l generalizing p with
  | nil => cases hl
  | cons a t ih =>
    rcases List.pairwise_cons.mp hpair with ⟨ha, hpt⟩
    intro q hq heq
    cases hft : firstMax t with
    | none =>
      simp only [firstMax, hft] at hl
      cases t with
      | nil =>
        obtain rfl : a = p := by injection hl
        obtain rfl : q = a := by
          rcases List.mem_cons.mp hq with rfl | hq'
          · rfl
          · cases hq'
        exact charListLe_refl _
      | cons b u => exact absurd hft (firstMax_ne_none b u)
    | some g =>
      simp only [firstMax, hft] at hl
      by_cases hgt : g.2 > a.2
      · rw [if_pos hgt] at hl
        obtain rfl : g = p := by injection hl
        rcases List.mem_cons.mp hq with rfl | hq'
        · exact absurd hgt (by rw [heq]; exact lt_irrefl _)
        · exact ih hpt hft q hq' heq
      · rw [if_neg hgt] at hl
        obtain rfl : a = p := by injection hl
        rcases List.mem_cons.mp hq with rfl | hq'
        · exact charListLe_refl _
        · exact ha q hq'

/-- `firstMaxFact` of a non-empty list is never `none`. -/
theorem firstMaxFact_ne_none (f : Fact) (fs : List Fact) :
    firstMaxFact (f :: fs) ≠ none := by
  rw [firstMaxFact]
  cases firstMaxFact fs with
  | none => simp
  | some g =>
    by_cases hg : g.count > f.count <;> simp [hg]

/-- `firstMaxFact` returns a row of maximal count. -/
theorem firstMaxFact_le {l : List Fact} {f : Fact}
    (hl : firstMaxFact l = some f) : ∀ g ∈ l, g.count ≤ f.count := by
  induction l generalizing f with
  | nil => cases hl
  | cons a t ih =>
    intro g hg
    cases hft : firstMaxFact t with
    | none =>
      simp only [firstMaxFact, hft] at hl
      cases t with
      | nil =>
        obtain rfl : a = f := by injection hl
        obtain rfl : g = a := by
          rcases List.mem_cons.mp hg with rfl | hg'
          · rfl
          · cases hg'
        exact le_refl _
      | cons b u => exact absurd hft (firstMaxFact_ne_none b u)
    | some m =>
      simp only [firstMaxFact, hft] at hl
      by_cases hmt : m.count > a.count
      · rw [if_pos hmt] at hl
        obtain rfl : m = f := by injection hl
        rcases List.mem_cons.mp hg with rfl | hg'
        · exact le_of_lt hmt
        · exact ih hft g hg'
      · rw [if_neg hmt] at hl
        obtain rfl : a = f := by injection hl
        rcases List.mem_cons.mp hg with rfl | hg'
        · exact le_refl _
        · exact le_trans (ih hft g hg') (le_of_not_lt hmt)

/-- C6 counterexample: in individual mode the champion of the concrete tie
table is the B-station row that appears first in input order, although the
equally-counted A-station row has the strictly smaller key — so ties are not
broken by the key's string order. -/
theorem champIndividual_first_encountered :
    champIndividual factsTie "04" "승차" = some ⟨"2호선", "B역", "04", "승차", 10⟩ ∧
    (⟨"1호선", "A역", "04", "승차", 10⟩ : Fact) ∈ sliceFacts factsTie "04" "승차" ∧
    strLe "A역" "B역" = true ∧ ("A역" : String) ≠ "B역" := by
  refine ⟨rfl, by decide, by decide, by decide⟩

/-- C6 (amended): the champion computation always returns a key of maximal
count for the (hour, direction) group; in combined mode — where pandas sorts
the grouped station keys — a tie resolves to the least station name in
string order, but in individual mode `idxmax` returns the first row
encountered in input order, as the concrete tie table shows. -/
theorem champion_spec :
    (∀ (facts : List Fact) (h d : String) (p : String × Nat),
        champCombined facts h d = some p →
          ∀ q ∈ stationSums facts h d, q.2 ≤ p.2 ∧ (q.2 = p.2 → strLe p.1 q.1 = true)) ∧
    (∀ (facts : List Fact) (h d : String) (f : Fact),
        champIndividual facts h d = some f → ∀ g ∈ sliceFacts facts h d, g.count ≤ f.count) ∧
    champIndividual factsTie "04" "승차" = some ⟨"2호선", "B역", "04", "승차", 10⟩ ∧
    champCombined factsTie "04" "승차" = some ("A역", 10) := by
  refine ⟨?_, ?_, rfl, rfl⟩
  · intro facts h d p hp q hq
    have hpair : (stationSums facts h d).Pairwise (fun a b => strLe a.1 b.1 = true) :=
      List.Pairwise.map _ (fun a b hab => hab) (sortStrings_pairwise _)
    exact ⟨firstMax_le hp q hq, fun heq => firstMax_tie hpair hp q hq heq⟩
  · intro facts h d f hf g hg
    exact firstMaxFact_le hf g hg

/-- C6 witness: `champion_spec` applied to the concrete tie table — the
combined-mode champion is ("A역", 10) and dominates the tied B-station
row, with the least key. -/
theorem champion_spec_witness :
    (("B역", 10) : String × Nat).2 ≤ (("A역", 10) : String × Nat).2 ∧
    strLe "A역" "B역" = true := by
  have h := champion_spec.1 factsTie "04" "승차" ("A역", 10) rfl ("B역", 10) (by decide)
  exact ⟨h.1, h.2 rfl⟩

/-- C1 counterexample: on the concrete two-station pattern table
`[[1,2],[3,2]]` the page-03 similarity profile (MinMax-scaled per column) of
the first station is `[0, 0]`, which differs from that station's count
vector divided by its own total, `[1/3, 2/3]` — so the similarity profile is
not always the division-by-total vector. -/
theorem minMax_profile_not_share :
    minMaxTable [[(1 : ℚ), 2], [3, 2]] = [[0, 0], [1, 0]] ∧
    normalizeRow [1, 2] = [1 / 3, 2 / 3] ∧
    ((0 : ℚ) ≠ 1 / 3) := by
  refine ⟨?_, ?_, by norm_num⟩
  · norm_num [minMaxTable, minMaxEntry, colVals, listMin, listMax, List.enum]
  · norm_num [normalizeRow]

/-- C1 (amended): the `main.py` similarity profile is the station's
per-(hour,direction) count vector divided by the station's own total — a
station with zero total yields the all-zero profile with no division error,
and every profile value lies in [0,1]; the page-03 engine
(`get_pattern_data`) instead MinMax-scales each column and does not in
general produce the division-by-total vector. -/
theorem normalizeRow_spec :
    (∀ (tbl : List ((String × String) × List Nat)) (k : String × String) (v : List Nat),
        (k, v) ∈ tbl → (k, normalizeRow v) ∈ patternProfiles tbl) ∧
    (∀ v : List Nat, v.sum = 0 → normalizeRow v = List.replicate v.length 0) ∧
    (∀ (v : List Nat) (x : ℚ), x ∈ normalizeRow v → 0 ≤ x ∧ x ≤ 1) := by
  refine ⟨?_, ?_, ?_⟩
  · intro tbl k v hkv
    exact List.mem_map_of_mem (fun kr => (kr.1, normalizeRow kr.2)) hkv
  · intro v hv
    unfold normalizeRow
    rw [hv]
    simp only [Nat.cast_zero, div_zero]
    exact List.map_const' v 0
  · intro v x hx
    rcases List.mem_map.mp hx with ⟨c, hc, rfl⟩
    constructor
    · exact div_nonneg (Nat.cast_nonneg c) (Nat.cast_nonneg v.sum)
    · rcases Nat.eq_zero_or_pos v.sum with h0 | hpos
      · rw [h0]
        simp
      · apply div_le_one_of_le₀
        · exact_mod_cast List.single_le_sum (fun y _ => Nat.zero_le y) c hc
        · exact_mod_cast Nat.zero_le v.sum

/-- C1 witness: `normalizeRow_spec` applied to the all-zero two-bucket
station row — the profile is the all-zero vector. -/
theorem normalizeRow_spec_witness : normalizeRow [0, 0] = List.replicate 2 0 :=
  normalizeRow_spec.2.1 [0, 0] rfl

/-- C8 counterexample: the header `"4 승차"` contains no time-separator
marker (no `:` and no `시`) and is not an identity column, yet the
normalizer emits it as the canonical column `04_승차` instead of dropping
it — via the backup regex of `_parse_hour`. -/
theorem normalizeHeader_backup_emission :
    normalizeHeader "4 승차" = some "04_승차" ∧
    stripStr "4 승차" ∉ baseCols ∧
    ':' ∉ "4 승차".data ∧ '시' ∉ "4 승차".data := by
  refine ⟨by decide, by decide, by decide, by decide⟩

/-- C8 (amended): a header carrying a boarding/alighting marker is emitted
as a canonical column whenever the hour parser extracts an in-range hour —
first by the digits-before-separator rule, falling back to a standalone 1–2
digit number followed by a non-digit at the start or after whitespace — and
is dropped silently otherwise; a non-identity header without a marker is
always dropped with no error.  In particular `"04:00~05:00 승차"` becomes
`04_승차` while `"시간외"` is dropped, and the separator-less `"4 승차"` is
also emitted. -/
theorem normalizeHeader_spec :
    renameColumnsSafely ["04:00~05:00 승차", "시간외"] = ["04_승차"] ∧
    normalizeHeader "4 승차" = some "04_승차" ∧
    (∀ c : String, containsSub (stripStr c) "승차" = false →
        containsSub (stripStr c) "하차" = false → stripStr c ∉ baseCols →
        normalizeHeader c = none) := by
  refine ⟨by decide, by decide, ?_⟩
  intro c h1 h2 h3
  simp only [normalizeHeader, h1, h2]
  rw [if_neg h3]
  simp

/-- C8 witness: the marker-free clause of `normalizeHeader_spec` applied at
the concrete malformed header `"시간외"`. -/
theorem normalizeHeader_spec_witness : normalizeHeader "시간외" = none :=
  normalizeHeader_spec.2.2 "시간외" (by decide) (by decide) (by decide)

/-- C9: for every byte source, the loader attempts cp949 first; the
utf-8-sig retry happens exactly when the cp949 read fails with a decode
error; at most two encodings are ever attempted; two decode failures
surface a decode error; a missing source is reported with no second
attempt. -/
theorem loadDataEnc_spec :
    ∀ (α : Type) (read : Enc → ReadOutcome α),
      ((loadDataEnc read).2.head? = some Enc.cp949) ∧
      ((loadDataEnc read).2.length ≤ 2) ∧
      ((loadDataEnc read).2 = [Enc.cp949, Enc.utf8sig] ↔
          read Enc.cp949 = ReadOutcome.decodeErr) ∧
      (read Enc.cp949 = ReadOutcome.decodeErr →
          read Enc.utf8sig = ReadOutcome.decodeErr →
          (loadDataEnc read).1 = LoadResult.uncaughtDecodeErr) ∧
      (read Enc.cp949 = ReadOutcome.notFound →
          (loadDataEnc read).1 = LoadResult.sourceMissing ∧
          (loadDataEnc read).2 = [Enc.cp949]) := by
  intro α read
  cases h1 : read Enc.cp949 with
  | ok t => simp [loadDataEnc, h1]
  | notFound => simp [loadDataEnc, h1]
  | decodeErr => cases h2 : read Enc.utf8sig <;> simp [loadDataEnc, h1, h2]

/-- C9 witness: `loadDataEnc_spec` at a source failing to decode under both
encodings — the decode error surfaces after the second attempt. -/
theorem loadDataEnc_spec_witness :
    (loadDataEnc (fun _ => (ReadOutcome.decodeErr : ReadOutcome Unit))).1
      = LoadResult.uncaughtDecodeErr :=
  ((loadDataEnc_spec Unit (fun _ => ReadOutcome.decodeErr)).2.2.2.1) rfl rfl

end Metro
